import Mathlib

/-!
Verification of the MRC/IMSUBS encoder of MicronOxford/scripts.

The encoder under study is `write_imsubs` in `omero/omero2mrc.py` (the
byte-identical `any2imsubs` variants live in `omero/dv_utils.py` and
`omero/ndsafir.py`).  It serializes a multi-dimensional pixel dataset into a
fixed 1024-byte header followed by raw raster planes, using Python's
`struct.pack` with native little-endian layout.  The format classifiers
`is_imsubs` / `is_dv` of `omero/dv_utils.py` and `omero/ndsafir.py` are also
embedded.

Modelling conventions:
  * a byte stream is a `List Nat` of values `< 256`;
  * `struct.pack` fields are explicit little-endian byte lists
    (`pack_i32`, `pack_i16`, `f32le`);
  * `struct.pack("f", x)` is modelled by an executable IEEE-754 binary32
    encoder on exact rationals (`f32bits`), round-to-nearest, ties to even;
  * pixel samples are integer-valued (`Int`); a plane additionally carries
    the numpy dtype tag `isFloat64` that triggers the float64 -> float32
    narrowing of the source's plane loop;
  * exceptions are modelled by returning the bytes written so far together
    with an error value (`EncErr`), matching a caller that observes the sink
    after the raise.
-/

namespace MRC

/-- Little-endian byte serialization: `w` bytes of the natural number `v`
(the order `struct.pack` uses on the x86 hosts the scripts target). -/
def bytesLE (w : Nat) (v : Nat) : List Nat :=
  (List.range w).map (fun i => v / 256 ^ i % 256)

/-- `struct.pack("i", v)`: one little-endian signed 32-bit integer. -/
def pack_i32 (v : Int) : List Nat :=
  bytesLE 4 (v % 4294967296).toNat

/-- `struct.pack("h", v)`: one little-endian signed 16-bit integer. -/
def pack_i16 (v : Int) : List Nat :=
  bytesLE 2 (v % 65536).toNat

/-- Floor-of-log2 on naturals by fuel (structural recursion, so that the
kernel can evaluate it inside `decide`; 300 bits of fuel cover every value
the encoder produces). -/
def log2fuel : Nat → Nat → Nat
  | 0, _ => 0
  | f + 1, n => if 2 ≤ n then log2fuel f (n / 2) + 1 else 0

/-- For `0 < a < 1`, the smallest `k ≥ 1` with `a * 2 ^ k ≥ 1`
(so that `2 ^ (-k) ≤ a < 2 ^ (-k+1)`), again by fuel. -/
def negLog2fuel : Nat → Rat → Nat
  | 0, _ => 0
  | f + 1, a => if 1 ≤ a * 2 then 1 else 1 + negLog2fuel f (a * 2)

/-- The integer `e` with `2 ^ e ≤ a < 2 ^ (e+1)`, for positive rationals in
the range the encoder meets. -/
def ratLog2 (a : Rat) : Int :=
  if 1 ≤ a then Int.ofNat (log2fuel 300 a.floor.toNat)
  else - Int.ofNat (negLog2fuel 300 a)

/-- `2 ^ k` as a rational, for integer `k`. -/
def pow2R (k : Int) : Rat :=
  if 0 ≤ k then ((2 ^ k.toNat : Nat) : Rat) else 1 / ((2 ^ (-k).toNat : Nat) : Rat)

/-- Round a nonnegative rational to the nearest natural number, ties to
even -- the IEEE-754 default rounding applied by `struct.pack("f")`. -/
def roundNE (x : Rat) : Nat :=
  let n := x.floor.toNat
  if x - (n : Rat) > 1 / 2 then n + 1
  else if x - (n : Rat) < 1 / 2 then n
  else if n % 2 = 0 then n else n + 1

/-- IEEE-754 binary32 bit pattern of a rational (round to nearest, ties to
even; overflow to infinity).  This is the value `struct.pack("f", x)`
serializes. -/
def f32bits (q : Rat) : Nat :=
  if q = 0 then 0
  else
    let sgn : Nat := if q < 0 then 2 ^ 31 else 0
    let a : Rat := |q|
    let e : Int := ratLog2 a
    if 128 ≤ e then sgn + 0x7F800000
    else if e < -126 then
      let m := roundNE (a * pow2R 149)
      if 2 ^ 23 ≤ m then sgn + 0x00800000 + (m - 2 ^ 23)
      else sgn + m
    else
      let m := roundNE (a * pow2R (23 - e))
      if m = 2 ^ 24 then
        if e = 127 then sgn + 0x7F800000
        else sgn + (e + 128).toNat * 2 ^ 23
      else sgn + (e + 127).toNat * 2 ^ 23 + (m - 2 ^ 23)

/-- `struct.pack("f", q)`: four little-endian bytes of the binary32 value. -/
def f32le (q : Rat) : List Nat :=
  bytesLE 4 (f32bits q)

/-- `struct.unpack("H", s[i:i+2])[0]` as an integer: unsigned little-endian
16-bit read (missing bytes read as 0; the callers guard the length). -/
def unpackU16 (s : List Nat) (i : Nat) : Int :=
  ((s.getD i 0 + 256 * s.getD (i + 1) 0 : Nat) : Int)

/-- A little-endian *signed* 16-bit read, used to state what the IMSUBS
signature bytes mean. -/
def unpackI16 (s : List Nat) (i : Nat) : Int :=
  let u : Nat := s.getD i 0 + 256 * s.getD (i + 1) 0
  if u < 32768 then (u : Int) else (u : Int) - 65536

/-- The pixel types of the OMERO enumeration, exactly the keys of the
`pixel_types` dict in `write_imsubs` (`float` is float32, `complex` is
complex64, `double` is float64, `doublecomplex` is complex128). -/
inductive PixelsType where
  | int8 | uint8 | int16 | uint16 | int32 | uint32
  | float | double | bit | complex | doublecomplex
deriving DecidableEq

/-- The `pixel_types` lookup table of `write_imsubs`
(`omero/omero2mrc.py` lines 60-72): MRC mode code, or `None`. -/
def pixel_types : PixelsType → Option Int
  | .int8 => none
  | .uint8 => some 0
  | .int16 => some 1
  | .uint16 => some 6
  | .int32 => some 7
  | .uint32 => none
  | .float => some 2
  | .double => none
  | .bit => none
  | .complex => some 4
  | .doublecomplex => none

/-- Bytes each sample of an encodable pixel type occupies in the output
stream (the numpy itemsize of the dtype actually written). -/
def bytesPerSample : PixelsType → Nat
  | .uint8 => 1
  | .int16 => 2
  | .uint16 => 2
  | .int32 => 4
  | .float => 4
  | .complex => 8
  | _ => 0

/-- A 2D plane as returned by `px.getPlane(...)`: row-major integer-valued
samples plus the numpy dtype tag that `write_imsubs` tests
(`p.dtype == "float64"`, the OMERO issue 2547 workaround). -/
structure Plane where
  rows : List (List Int)
  isFloat64 : Bool
deriving DecidableEq

/-- `numpy.flipud`: reverse the row order. -/
def flipud (rows : List (List Int)) : List (List Int) :=
  rows.reverse

/-- All samples of a plane, as numpy reductions see them. -/
def planeSamples (p : Plane) : List Int :=
  p.rows.flatten

/-- `p.min()`. -/
def planeMin (p : Plane) : Int :=
  match planeSamples p with
  | [] => 0
  | x :: xs => xs.foldl min x

/-- `p.max()`. -/
def planeMax (p : Plane) : Int :=
  match planeSamples p with
  | [] => 0
  | x :: xs => xs.foldl max x

/-- `p.mean()` as an exact rational. -/
def planeMean (p : Plane) : Rat :=
  (((planeSamples p).foldl (· + ·) 0 : Int) : Rat) / (((planeSamples p).length : Nat) : Rat)

/-- One sample serialized in the dataset's native dtype (`p.tofile`):
little-endian two's complement for the integer modes, binary32 for
`float`, real part plus zero imaginary part for `complex`.  The types with
no mode code are rejected before any plane is serialized. -/
def sampleBytes (pt : PixelsType) (v : Int) : List Nat :=
  match pt with
  | .uint8 => bytesLE 1 (v % 256).toNat
  | .int16 => bytesLE 2 (v % 65536).toNat
  | .uint16 => bytesLE 2 (v % 65536).toNat
  | .int32 => bytesLE 4 (v % 4294967296).toNat
  | .float => f32le (v : Rat)
  | .complex => f32le (v : Rat) ++ f32le 0
  | _ => []

/-- The bytes one iteration of the plane loop appends
(`omero/omero2mrc.py` lines 153-158): narrow float64 planes to float32,
flip vertically, then `tofile` in row-major order. -/
def planeFileBytes (pt : PixelsType) (p : Plane) : List Nat :=
  if p.isFloat64 then
    (flipud p.rows).flatMap (fun row => row.flatMap (fun v => f32le (v : Rat)))
  else
    (flipud p.rows).flatMap (fun row => row.flatMap (fun v => sampleBytes pt v))

/-- The slice of `omero.gateway._ImageWrapper` that `write_imsubs` reads:
dimension accessors, pixel type, physical pixel spacing, per-channel
emission wavelengths (`None` when unknown), and the `getPlane(theC, theT,
theZ)` accessor. -/
structure ImageWrapper where
  sizeX : Nat
  sizeY : Nat
  sizeZ : Nat
  sizeC : Nat
  sizeT : Nat
  pixelsType : PixelsType
  pixelSizeX : Rat
  pixelSizeY : Rat
  pixelSizeZ : Rat
  channels : List (Option Int)
  getPlane : Nat → Nat → Nat → Plane

/-- The errors `write_imsubs` can raise: the two `TypeError`s of the source
plus the `struct.error` that `struct.pack` raises on a negative repeat
count (`"%if" % ((4 - nchan) * 2)` with `nchan > 4`). -/
inductive EncErr where
  | unsupportedPixelType
  | tooManyChannels
  | structError
deriving DecidableEq

/-- Source lines 57-58: `pack("2i", ncols, nrows)` and
`pack("1i", nzsec * nchan * ntime)` -- the 12 bytes written before the
pixel-type lookup. -/
def first12 (img : ImageWrapper) : List Nat :=
  pack_i32 (img.sizeX : Int) ++ pack_i32 (img.sizeY : Int)
    ++ pack_i32 ((img.sizeZ * img.sizeC * img.sizeT : Nat) : Int)

/-- Source lines 80-102: everything between the mode field and the IMSUBS
signature -- sub-image start, sampling frequencies, cell dimensions and
angles, axis map, and the min/max/mean of `px.getPlane()` (plane (0,0,0)). -/
def chunk16to96 (img : ImageWrapper) : List Nat :=
  pack_i32 0 ++ pack_i32 0 ++ pack_i32 0
    ++ pack_i32 (img.sizeX : Int) ++ pack_i32 (img.sizeY : Int) ++ pack_i32 (img.sizeZ : Int)
    ++ f32le ((img.sizeX : Rat) * img.pixelSizeX * 10000)
    ++ f32le ((img.sizeY : Rat) * img.pixelSizeY * 10000)
    ++ f32le ((img.sizeZ : Rat) * img.pixelSizeZ * 10000)
    ++ f32le 90 ++ f32le 90 ++ f32le 90
    ++ pack_i32 1 ++ pack_i32 2 ++ pack_i32 3
    ++ f32le ((planeMin (img.getPlane 0 0 0) : Int) : Rat)
    ++ f32le ((planeMax (img.getPlane 0 0 0) : Int) : Rat)
    ++ f32le (planeMean (img.getPlane 0 0 0))
    ++ pack_i32 0 ++ pack_i32 0

/-- Source lines 107-111: the fields between the signature and the
per-channel min/max region (unused int16, start time index, 24 blank
spaces, extended-header organization, sub-resolution version). -/
def chunk98to136 : List Nat :=
  pack_i16 0 ++ pack_i32 0 ++ List.replicate 24 32
    ++ pack_i16 0 ++ pack_i16 0 ++ pack_i16 1 ++ pack_i16 1

/-- Source lines 115-117: `for chan in range(1, min(4, nchan))` write the
min and max of `px.getPlane(theC=chan)` as two float32. -/
def chanMinMaxLoop (img : ImageWrapper) : List Nat :=
  (List.range' 1 (min 4 img.sizeC - 1)).flatMap (fun w =>
    f32le ((planeMin (img.getPlane w 0 0) : Int) : Rat)
      ++ f32le ((planeMax (img.getPlane w 0 0) : Int) : Rat))

/-- All bytes written before the zero padding of the channel min/max
region: offsets 0-136 of the header followed by the loop of
`chanMinMaxLoop`. -/
def preMinMaxPad (img : ImageWrapper) (prc : Int) : List Nat :=
  first12 img ++ pack_i32 prc ++ chunk16to96 img
    ++ pack_i16 (-16224) ++ chunk98to136 ++ chanMinMaxLoop img

/-- Source line 118: `pack("%if" % ((4 - nchan) * 2), *[0]*((4-nchan)*2))`
-- `(4 - nchan) * 2` zero float32 values (only reached when the repeat
count is nonnegative). -/
def padZeros (img : ImageWrapper) : List Nat :=
  (List.replicate ((4 - (img.sizeC : Int)) * 2).toNat (f32le 0)).flatten

/-- Source lines 120-122: image type, lens identification number, and the
four image-type-dependent int16 fields, all zero. -/
def midBytes : List Nat :=
  pack_i16 0 ++ pack_i16 0 ++ pack_i16 0 ++ pack_i16 0 ++ pack_i16 0 ++ pack_i16 0

/-- Source lines 128-129: min/max of a fifth channel, `px.getPlane(theC=4)`
(the `nchan == 5` branch). -/
def fifth5Bytes (img : ImageWrapper) : List Nat :=
  f32le ((planeMin (img.getPlane 4 0 0) : Int) : Rat)
    ++ f32le ((planeMax (img.getPlane 4 0 0) : Int) : Rat)

/-- Source lines 133-148: number of time points, image sequence, tilt
angles, wavelength count and values (unknown wavelength written as 0,
zero-padded to 5 slots), origin, title count, and 800 blank title bytes. -/
def tailBytes (img : ImageWrapper) : List Nat :=
  pack_i16 (img.sizeT : Int) ++ pack_i16 0
    ++ f32le 0 ++ f32le 0 ++ f32le 0
    ++ pack_i16 (img.sizeC : Int)
    ++ img.channels.flatMap (fun w => pack_i16 (w.getD 0))
    ++ (List.replicate (5 - img.sizeC) (pack_i16 0)).flatten
    ++ f32le 0 ++ f32le 0 ++ f32le 0
    ++ pack_i32 0 ++ List.replicate 800 32

/-- Source lines 150-158: the plane loop, outer over channel, then time,
then Z, each plane narrowed/flipped/serialized by `planeFileBytes`. -/
def planesBytes (img : ImageWrapper) : List Nat :=
  (List.range img.sizeC).flatMap (fun w =>
    (List.range img.sizeT).flatMap (fun t =>
      (List.range img.sizeZ).flatMap (fun z =>
        planeFileBytes img.pixelsType (img.getPlane w t z))))

/-- The full output of a successful encode with fewer than five channels:
header pieces in write order (the fifth-channel min/max field is two zero
float32), then the raw planes. -/
def successBytes (img : ImageWrapper) (prc : Int) : List Nat :=
  preMinMaxPad img prc ++ padZeros img ++ midBytes
    ++ f32le 0 ++ f32le 0 ++ tailBytes img ++ planesBytes img

/-- `write_imsubs(img, f)` of `omero/omero2mrc.py` (lines 51-159): the pair
of (bytes written to the sink, raised error if any), with the source's
control flow kept intact:

  * the pixel-type lookup happens after the first 12 bytes are written;
  * `struct.pack` with the negative repeat count `(4 - nchan) * 2`
    (any `nchan > 4`) raises `struct.error` right after the channel
    min/max loop;
  * then the `nchan < 5` / `nchan == 5` / else-raise branch of the
    fifth-channel field (the latter two are unreachable: the padding
    error fires first). -/
def write_imsubs (img : ImageWrapper) : List Nat × Option EncErr :=
  match pixel_types img.pixelsType with
  | none => (first12 img, some EncErr.unsupportedPixelType)
  | some prc =>
    if (4 - (img.sizeC : Int)) * 2 < 0 then
      (preMinMaxPad img prc, some EncErr.structError)
    else if img.sizeC < 5 then
      (successBytes img prc, none)
    else if img.sizeC = 5 then
      (preMinMaxPad img prc ++ padZeros img ++ midBytes
        ++ fifth5Bytes img ++ tailBytes img ++ planesBytes img, none)
    else
      (preMinMaxPad img prc ++ padZeros img ++ midBytes, some EncErr.tooManyChannels)

/-- Number of bytes `write_imsubs` has written when it writes the image
type field (the field the spec places at offset 168). -/
def imagetypeFieldOffset (img : ImageWrapper) (prc : Int) : Nat :=
  (preMinMaxPad img prc ++ padZeros img).length

/-- `dv_utils.is_imsubs` (`omero/dv_utils.py` lines 113-127): guarded by
`maybe_mrc` (a full 1024-byte header was read), then compares the
*unsigned* 16-bit value at offset 96 with -16224. -/
def is_imsubs (file : List Nat) : Bool :=
  if 1024 ≤ file.length then
    if unpackU16 file 96 = (-16224 : Int) then true else false
  else false

/-- `ndsafir.is_imsubs` (`omero/ndsafir.py` lines 166-184): same unsigned
compare, guarded only by a 98-byte read. -/
def ndsafir_is_imsubs (file : List Nat) : Bool :=
  if 98 ≤ file.length then
    if unpackU16 file 96 = (-16224 : Int) then true else false
  else false

/-- `dv_utils.is_dv` (`omero/dv_utils.py` lines 98-111): the unsigned
16-bit value at offset 96 must read 49312 (0xC0A0) or 41152 (0xA0C0). -/
def is_dv (file : List Nat) : Bool :=
  if 1024 ≤ file.length then
    if unpackU16 file 96 = 49312 ∨ unpackU16 file 96 = 41152 then true else false
  else false

/-- Well-formedness of the planes the encoder touches: every plane in
range is `sizeY` rows of `sizeX` samples, and a float64-tagged plane only
occurs for the float32 pixel type (the OMERO issue 2547 situation the
narrowing exists for). -/
def planesWF (img : ImageWrapper) : Prop :=
  ∀ c < img.sizeC, ∀ t < img.sizeT, ∀ z < img.sizeZ,
    (img.getPlane c t z).rows.length = img.sizeY ∧
    (∀ r ∈ (img.getPlane c t z).rows, r.length = img.sizeX) ∧
    ((img.getPlane c t z).isFloat64 = true → img.pixelsType = PixelsType.float)

instance (img : ImageWrapper) : Decidable (planesWF img) := by
  unfold planesWF; infer_instance

/-- The header of a successful encode (every byte before the plane data). -/
def successHeader (img : ImageWrapper) (prc : Int) : List Nat :=
  preMinMaxPad img prc ++ padZeros img ++ midBytes
    ++ f32le 0 ++ f32le 0 ++ tailBytes img

/-- The plane data as a list of per-plane chunks, in the write order of the
plane loop (channel, then time, then Z). -/
def planeChunks (img : ImageWrapper) : List (List Nat) :=
  (List.range img.sizeC).flatMap (fun w =>
    (List.range img.sizeT).flatMap (fun t =>
      (List.range img.sizeZ).map (fun z =>
        planeFileBytes img.pixelsType (img.getPlane w t z))))

/-! Concrete datasets used to instantiate the theorems below. -/

/-- A 2x2 single-plane int16 dataset with samples [[1,2],[3,4]]. -/
def exDS1 : ImageWrapper :=
  { sizeX := 2, sizeY := 2, sizeZ := 1, sizeC := 1, sizeT := 1
    pixelsType := PixelsType.int16
    pixelSizeX := 0, pixelSizeY := 0, pixelSizeZ := 0
    channels := [some 525]
    getPlane := fun _ _ _ => ⟨[[1, 2], [3, 4]], false⟩ }

/-- A 3-channel, 2-timepoint, 4-section dataset of 1x1 uint8 planes whose
single sample records its own (channel, time, z) coordinates. -/
def exDS2 : ImageWrapper :=
  { sizeX := 1, sizeY := 1, sizeZ := 4, sizeC := 3, sizeT := 2
    pixelsType := PixelsType.uint8
    pixelSizeX := 0, pixelSizeY := 0, pixelSizeZ := 0
    channels := [none, none, none]
    getPlane := fun c t z => ⟨[[(c * 8 + t * 4 + z : Int)]], false⟩ }

/-- A five-channel dataset of an encodable pixel type. -/
def exDS5ch : ImageWrapper :=
  { sizeX := 1, sizeY := 1, sizeZ := 1, sizeC := 5, sizeT := 1
    pixelsType := PixelsType.uint8
    pixelSizeX := 0, pixelSizeY := 0, pixelSizeZ := 0
    channels := [none, none, none, none, none]
    getPlane := fun _ _ _ => ⟨[[0]], false⟩ }

/-- A six-channel dataset of an encodable pixel type. -/
def exDS6ch : ImageWrapper :=
  { sizeX := 1, sizeY := 1, sizeZ := 1, sizeC := 6, sizeT := 1
    pixelsType := PixelsType.uint8
    pixelSizeX := 0, pixelSizeY := 0, pixelSizeZ := 0
    channels := [none, none, none, none, none, none]
    getPlane := fun _ _ _ => ⟨[[0]], false⟩ }

/-- A dataset with pixel type uint32 (no MRC mode). -/
def exU32 : ImageWrapper :=
  { sizeX := 1, sizeY := 1, sizeZ := 1, sizeC := 1, sizeT := 1
    pixelsType := PixelsType.uint32
    pixelSizeX := 0, pixelSizeY := 0, pixelSizeZ := 0
    channels := [none]
    getPlane := fun _ _ _ => ⟨[[0]], false⟩ }

/-- A dataset with pixel type bit (no MRC mode). -/
def exBit : ImageWrapper :=
  { sizeX := 1, sizeY := 1, sizeZ := 1, sizeC := 1, sizeT := 1
    pixelsType := PixelsType.bit
    pixelSizeX := 0, pixelSizeY := 0, pixelSizeZ := 0
    channels := [none]
    getPlane := fun _ _ _ => ⟨[[0]], false⟩ }

/-- A dataset with pixel type int8 (which the lookup table also rejects). -/
def exInt8 : ImageWrapper :=
  { sizeX := 1, sizeY := 1, sizeZ := 1, sizeC := 1, sizeT := 1
    pixelsType := PixelsType.int8
    pixelSizeX := 0, pixelSizeY := 0, pixelSizeZ := 0
    channels := [none]
    getPlane := fun _ _ _ => ⟨[[0]], false⟩ }

/-- A single-channel dataset with seven time points (so that the time-point
count is visible in the header bytes). -/
def exC9 : ImageWrapper :=
  { sizeX := 1, sizeY := 1, sizeZ := 1, sizeC := 1, sizeT := 7
    pixelsType := PixelsType.uint8
    pixelSizeX := 0, pixelSizeY := 0, pixelSizeZ := 0
    channels := [none]
    getPlane := fun _ _ _ => ⟨[[0]], false⟩ }

/-- A two-channel int16 dataset whose channel-1 plane has min 4 and max 4. -/
def exDS9w : ImageWrapper :=
  { sizeX := 1, sizeY := 1, sizeZ := 1, sizeC := 2, sizeT := 1
    pixelsType := PixelsType.int16
    pixelSizeX := 0, pixelSizeY := 0, pixelSizeZ := 0
    channels := [some 445, some 525]
    getPlane := fun c _ _ => ⟨[[(c : Int) + 3]], false⟩ }

/-! ### Length and slicing helpers -/

theorem bytesLE_length (w v : Nat) : (bytesLE w v).length = w := by
  simp [bytesLE]

theorem pack_i32_length (v : Int) : (pack_i32 v).length = 4 := by
  simp [pack_i32, bytesLE_length]

theorem pack_i16_length (v : Int) : (pack_i16 v).length = 2 := by
  simp [pack_i16, bytesLE_length]

theorem f32le_length (q : Rat) : (f32le q).length = 4 := by
  simp [f32le, bytesLE_length]

theorem drop_len_append {α : Type} (n : Nat) (A B : List α) (h : A.length = n) :
    (A ++ B).drop n = B := by
  subst h; exact List.drop_left A B

theorem take_len_append {α : Type} (n : Nat) (A B : List α) (h : A.length = n) :
    (A ++ B).take n = A := by
  subst h; exact List.take_left A B

theorem drop_add_append {α : Type} (n m : Nat) (A B : List α) (h : A.length = n) :
    (A ++ B).drop (n + m) = B.drop m := by
  subst h; exact List.drop_append m

theorem length_flatMap_const {α β : Type} (l : List α) (f : α → List β) (L : Nat)
    (h : ∀ a ∈ l, (f a).length = L) : (l.flatMap f).length = L * l.length := by
  induction l with
  | nil => simp
  | cons a l ih =>
    rw [List.flatMap_cons, List.length_append, h a (List.mem_cons_self a l),
      ih (fun x hx => h x (List.mem_cons_of_mem a hx))]
    simp [List.length_cons]; ring

theorem flatten_replicate_length {α : Type} (n : Nat) (x : List α) :
    ((List.replicate n x).flatten).length = n * x.length := by
  simp [List.length_flatten, List.map_replicate, List.sum_replicate, smul_eq_mul]

theorem getD_eq_drop {α : Type} (l : List α) (n : Nat) (d : α) :
    l.getD n d = (l.drop n).getD 0 d := by
  simp [List.getD_eq_getElem?_getD, List.getElem?_drop]

theorem getD_add_drop {α : Type} (l : List α) (n i : Nat) (d : α) :
    l.getD (n + i) d = (l.drop n).getD i d := by
  simp [List.getD_eq_getElem?_getD, List.getElem?_drop]

/-! ### Lengths of the header pieces -/

theorem first12_length (img : ImageWrapper) : (first12 img).length = 12 := by
  simp [first12, pack_i32_length]

theorem chunk16to96_length (img : ImageWrapper) : (chunk16to96 img).length = 80 := by
  simp [chunk16to96, pack_i32_length, f32le_length]

theorem chunk98to136_length : chunk98to136.length = 38 := by
  simp [chunk98to136, pack_i16_length, pack_i32_length]

theorem chanMinMaxLoop_length (img : ImageWrapper) :
    (chanMinMaxLoop img).length = 8 * (min 4 img.sizeC - 1) := by
  unfold chanMinMaxLoop
  rw [length_flatMap_const _ _ 8 (fun a _ => by simp [f32le_length])]
  rw [List.length_range']

theorem preMinMaxPad_length (img : ImageWrapper) (prc : Int) :
    (preMinMaxPad img prc).length = 136 + 8 * (min 4 img.sizeC - 1) := by
  simp [preMinMaxPad, first12_length, pack_i32_length, chunk16to96_length,
    pack_i16_length, chunk98to136_length, chanMinMaxLoop_length]
  omega

theorem padZeros_length (img : ImageWrapper) :
    (padZeros img).length = ((4 - (img.sizeC : Int)) * 2).toNat * 4 := by
  simp [padZeros, flatten_replicate_length, f32le_length]

theorem midBytes_length : midBytes.length = 12 := by
  simp [midBytes, pack_i16_length]

theorem tailBytes_length (img : ImageWrapper)
    (hch : img.channels.length = img.sizeC) (h5 : img.sizeC ≤ 5) :
    (tailBytes img).length = 844 := by
  have h1 : (img.channels.flatMap (fun w => pack_i16 (w.getD 0))).length
      = 2 * img.channels.length :=
    length_flatMap_const _ _ 2 (fun a _ => pack_i16_length _)
  unfold tailBytes
  simp only [List.length_append, pack_i16_length, f32le_length, pack_i32_length,
    flatten_replicate_length, List.length_replicate, h1, hch]
  omega

theorem successHeader_length (img : ImageWrapper) (prc : Int)
    (h1 : 1 ≤ img.sizeC) (h4 : img.sizeC ≤ 4)
    (hch : img.channels.length = img.sizeC) :
    (successHeader img prc).length = 1024 := by
  simp [successHeader, preMinMaxPad_length, padZeros_length, midBytes_length,
    f32le_length, tailBytes_length img hch (by omega)]
  omega

/-! ### Shape of the encoder result -/

theorem write_imsubs_succ (img : ImageWrapper) (prc : Int)
    (hpt : pixel_types img.pixelsType = some prc) (h4 : img.sizeC ≤ 4) :
    write_imsubs img = (successBytes img prc, none) := by
  have hneg : ¬ ((4 - (img.sizeC : Int)) * 2 < 0) := by omega
  have h5 : img.sizeC < 5 := by omega
  simp [write_imsubs, hpt, hneg, h5]

theorem write_imsubs_none_inv (img : ImageWrapper)
    (h : (write_imsubs img).2 = none) :
    ∃ prc, pixel_types img.pixelsType = some prc ∧ img.sizeC ≤ 4 := by
  unfold write_imsubs at h
  split at h
  next heq => simp at h
  next prc heq =>
    refine ⟨prc, heq, ?_⟩
    split at h
    next => simp at h
    next hneg => omega

theorem successBytes_eq (img : ImageWrapper) (prc : Int) :
    successBytes img prc = successHeader img prc ++ planesBytes img := by
  simp [successBytes, successHeader, List.append_assoc]

/-! ### The signature bytes at offsets 96-97 -/

theorem drop96_pre (img : ImageWrapper) (prc : Int) (X : List Nat) :
    (preMinMaxPad img prc ++ X).drop 96
      = pack_i16 (-16224) ++ (chunk98to136 ++ (chanMinMaxLoop img ++ X)) := by
  simp only [preMinMaxPad, List.append_assoc]
  rw [show (96 : Nat) = 12 + 84 from rfl,
    drop_add_append 12 84 _ _ (first12_length img),
    show (84 : Nat) = 4 + 80 from rfl,
    drop_add_append 4 80 _ _ (pack_i32_length prc),
    show (80 : Nat) = 80 + 0 from rfl,
    drop_add_append 80 0 _ _ (chunk16to96_length img), List.drop_zero]

theorem pack_sig : pack_i16 (-16224) = [160, 192] := by decide

theorem sig96 (img : ImageWrapper) (prc : Int) (X : List Nat) :
    (preMinMaxPad img prc ++ X).getD 96 0 = 160 := by
  rw [getD_eq_drop, drop96_pre, pack_sig]; rfl

theorem sig97 (img : ImageWrapper) (prc : Int) (X : List Nat) :
    (preMinMaxPad img prc ++ X).getD 97 0 = 192 := by
  rw [show (97 : Nat) = 96 + 1 from rfl, getD_add_drop, drop96_pre, pack_sig]; rfl

/-! ### The plane data as constant-size chunks -/

theorem flatten_flatMap {α β : Type} (l : List α) (f : α → List (List β)) :
    (l.flatMap f).flatten = l.flatMap (fun x => (f x).flatten) := by
  induction l with
  | nil => simp
  | cons a l ih => simp [List.flatMap_cons, List.flatten_append, ih]

theorem flatMap_congr_left {α β : Type} (l : List α) (f g : α → List β)
    (h : ∀ a ∈ l, f a = g a) : l.flatMap f = l.flatMap g := by
  rw [List.flatMap_def, List.flatMap_def, List.map_congr_left h]

theorem planesBytes_eq_chunks (img : ImageWrapper) :
    planesBytes img = (planeChunks img).flatten := by
  unfold planesBytes planeChunks
  simp only [flatten_flatMap]
  simp only [← List.flatMap_def]

theorem chunk_extract {α : Type} (L : Nat) (cs : List (List α)) :
    (∀ c ∈ cs, c.length = L) →
      ∀ k, k < cs.length → (cs.flatten.drop (k * L)).take L = cs.getD k [] := by
  induction cs with
  | nil => intro _ k hk; simp at hk
  | cons c cs ih =>
    intro h k hk
    cases k with
    | zero =>
      simp only [Nat.zero_mul, List.flatten_cons, List.drop_zero, List.getD_cons_zero]
      exact take_len_append L c _ (h c (List.mem_cons_self c cs))
    | succ k =>
      rw [List.flatten_cons, show (k + 1) * L = L + k * L by ring,
        drop_add_append L (k * L) c _ (h c (List.mem_cons_self c cs)),
        List.getD_cons_succ]
      exact ih (fun x hx => h x (List.mem_cons_of_mem c hx)) k (by simpa using hk)

theorem map_range_mul {α : Type} (g : Nat → α) (a m : Nat) :
    (List.range (a * m)).map g
      = (List.range a).flatMap (fun i => (List.range m).map (fun j => g (i * m + j))) := by
  induction a with
  | zero => simp
  | succ a ih =>
    rw [Nat.succ_mul, List.range_add, List.map_append, ih, List.range_succ,
      List.flatMap_append, List.flatMap_singleton, List.map_map]
    rfl

theorem idx_div_chan (w t z T Z : Nat) (ht : t < T) (hz : z < Z) :
    (w * (T * Z) + (t * Z + z)) / (T * Z) = w := by
  have hr : t * Z + z < T * Z := by
    calc t * Z + z < t * Z + Z := by omega
    _ = (t + 1) * Z := by ring
    _ ≤ T * Z := Nat.mul_le_mul_right Z ht
  rw [mul_comm w (T * Z), Nat.mul_add_div (by omega), Nat.div_eq_of_lt hr,
    Nat.add_zero]

theorem idx_mod_z (w t z T Z : Nat) (hz : z < Z) :
    (w * (T * Z) + (t * Z + z)) % Z = z := by
  rw [show w * (T * Z) + (t * Z + z) = Z * (w * T + t) + z by ring,
    Nat.mul_add_mod, Nat.mod_eq_of_lt hz]

theorem idx_div_time (w t z T Z : Nat) (ht : t < T) (hz : z < Z) :
    (w * (T * Z) + (t * Z + z)) / Z % T = t := by
  rw [show w * (T * Z) + (t * Z + z) = Z * (w * T + t) + z by ring,
    Nat.mul_add_div (by omega), Nat.div_eq_of_lt hz, Nat.add_zero,
    show w * T + t = T * w + t by ring, Nat.mul_add_mod, Nat.mod_eq_of_lt ht]

theorem planeChunks_eq (img : ImageWrapper) :
    planeChunks img
      = (List.range (img.sizeC * (img.sizeT * img.sizeZ))).map (fun k =>
          planeFileBytes img.pixelsType
            (img.getPlane (k / (img.sizeT * img.sizeZ))
              (k / img.sizeZ % img.sizeT) (k % img.sizeZ))) := by
  rw [map_range_mul _ img.sizeC (img.sizeT * img.sizeZ)]
  unfold planeChunks
  apply flatMap_congr_left
  intro w _
  rw [map_range_mul _ img.sizeT img.sizeZ]
  apply flatMap_congr_left
  intro t htm
  apply List.map_congr_left
  intro z hzm
  have ht0 : t < img.sizeT := List.mem_range.mp htm
  have hz0 : z < img.sizeZ := List.mem_range.mp hzm
  rw [idx_div_chan w t z _ _ ht0 hz0, idx_div_time w t z _ _ ht0 hz0,
    idx_mod_z w t z _ _ hz0]

theorem planeChunks_count (img : ImageWrapper) :
    (planeChunks img).length = img.sizeC * (img.sizeT * img.sizeZ) := by
  unfold planeChunks
  rw [length_flatMap_const _ _ (img.sizeZ * img.sizeT) (fun w _ => by
    rw [length_flatMap_const _ _ img.sizeZ (fun t _ => by
      rw [List.length_map, List.length_range]), List.length_range]),
    List.length_range]
  ring

/-! ### Per-plane byte counts -/

theorem sampleBytes_length (pt : PixelsType) (prc : Int)
    (h : pixel_types pt = some prc) (v : Int) :
    (sampleBytes pt v).length = bytesPerSample pt := by
  cases pt <;>
    simp_all [pixel_types, sampleBytes, bytesPerSample, bytesLE_length, f32le_length]

theorem planeFileBytes_length (pt : PixelsType) (prc : Int) (p : Plane)
    (h : pixel_types pt = some prc)
    (hf : p.isFloat64 = true → pt = PixelsType.float)
    (X Y : Nat) (hr : p.rows.length = Y) (hc : ∀ r ∈ p.rows, r.length = X) :
    (planeFileBytes pt p).length = Y * X * bytesPerSample pt := by
  unfold planeFileBytes
  split
  next hftag =>
    have hflt : pt = PixelsType.float := hf hftag
    rw [length_flatMap_const _ _ (4 * X) (fun r hrmem => by
      rw [length_flatMap_const _ _ 4 (fun v _ => f32le_length _),
        hc r (by simpa [flipud, List.mem_reverse] using hrmem)])]
    rw [show (flipud p.rows).length = Y by simp [flipud, hr]]
    rw [hflt]; show 4 * X * Y = Y * X * 2 ^ 2; ring
  next hftag =>
    rw [length_flatMap_const _ _ (bytesPerSample pt * X) (fun r hrmem => by
      rw [length_flatMap_const _ _ (bytesPerSample pt)
          (fun v _ => sampleBytes_length pt prc h v),
        hc r (by simpa [flipud, List.mem_reverse] using hrmem)])]
    rw [show (flipud p.rows).length = Y by simp [flipud, hr]]
    ring

theorem planeChunks_lengths (img : ImageWrapper) (prc : Int)
    (hpt : pixel_types img.pixelsType = some prc) (hwf : planesWF img) :
    ∀ c ∈ planeChunks img,
      c.length = img.sizeY * img.sizeX * bytesPerSample img.pixelsType := by
  intro c hcmem
  unfold planeChunks at hcmem
  obtain ⟨w, hw, hcmem⟩ := List.mem_flatMap.mp hcmem
  obtain ⟨t, htm, hcmem⟩ := List.mem_flatMap.mp hcmem
  obtain ⟨z, hzm, rfl⟩ := List.mem_map.mp hcmem
  obtain ⟨hrows, hcols, hfl⟩ :=
    hwf w (List.mem_range.mp hw) t (List.mem_range.mp htm) z (List.mem_range.mp hzm)
  exact planeFileBytes_length _ prc _ hpt hfl _ _ hrows hcols

theorem planesBytes_length (img : ImageWrapper) (prc : Int)
    (hpt : pixel_types img.pixelsType = some prc) (hwf : planesWF img) :
    (planesBytes img).length
      = img.sizeZ * img.sizeC * img.sizeT * img.sizeX * img.sizeY
          * bytesPerSample img.pixelsType := by
  have hL : ∀ w < img.sizeC, ∀ t < img.sizeT, ∀ z < img.sizeZ,
      (planeFileBytes img.pixelsType (img.getPlane w t z)).length
        = img.sizeY * img.sizeX * bytesPerSample img.pixelsType := by
    intro w hw t ht z hz
    obtain ⟨hrows, hcols, hfl⟩ := hwf w hw t ht z hz
    exact planeFileBytes_length _ prc _ hpt hfl _ _ hrows hcols
  unfold planesBytes
  rw [length_flatMap_const _ _
    ((img.sizeY * img.sizeX * bytesPerSample img.pixelsType) * img.sizeZ * img.sizeT)
    (fun w hw => by
      rw [length_flatMap_const _ _
        ((img.sizeY * img.sizeX * bytesPerSample img.pixelsType) * img.sizeZ)
        (fun t htm => by
          rw [length_flatMap_const _ _
            (img.sizeY * img.sizeX * bytesPerSample img.pixelsType)
            (fun z hzm => hL w (List.mem_range.mp hw) t (List.mem_range.mp htm)
              z (List.mem_range.mp hzm)), List.length_range]),
        List.length_range]),
    List.length_range]
  ring

/-! ### Remaining shared helpers for the claim theorems -/

theorem write_imsubs_structError (img : ImageWrapper) (prc : Int)
    (hpt : pixel_types img.pixelsType = some prc) (h5 : 5 ≤ img.sizeC) :
    write_imsubs img = (preMinMaxPad img prc, some EncErr.structError) := by
  have hneg : (4 - (img.sizeC : Int)) * 2 < 0 := by omega
  simp [write_imsubs, hpt, hneg]

theorem mode_slice (img : ImageWrapper) (prc : Int)
    (hpt : pixel_types img.pixelsType = some prc) :
    ((write_imsubs img).1.drop 12).take 4 = pack_i32 prc := by
  have key : ∀ X : List Nat,
      ((preMinMaxPad img prc ++ X).drop 12).take 4 = pack_i32 prc := by
    intro X
    simp only [preMinMaxPad, List.append_assoc]
    rw [drop_len_append 12 _ _ (first12_length img)]
    exact take_len_append 4 _ _ (pack_i32_length prc)
  by_cases h5 : 5 ≤ img.sizeC
  · rw [write_imsubs_structError img prc hpt h5]
    show ((preMinMaxPad img prc).drop 12).take 4 = pack_i32 prc
    have h := key []
    rwa [List.append_nil] at h
  · rw [write_imsubs_succ img prc hpt (by omega)]
    show ((successBytes img prc).drop 12).take 4 = pack_i32 prc
    simp only [successBytes, List.append_assoc]
    exact key _

/-! ## The claims -/

/-- C1, counterexample: the claim covers `num_channels ≤ 5`, but encoding the
five-channel dataset `exDS5ch` (encodable uint8 pixels) raises `struct.error`
at the channel-min/max zero-padding write (`pack` with repeat count
`(4 - 5) * 2 = -2`) instead of writing `1024 + plane-data` bytes. -/
theorem c1_counterexample :
    (write_imsubs exDS5ch).2 = some EncErr.structError := by decide

/-- C1, amended to `num_channels ≤ 4`: for every well-formed dataset with an
encodable pixel type and at most four channels, `write_imsubs` succeeds and
writes exactly `1024 + num_z * num_channels * num_time * width * height *
bytes_per_sample` bytes -- a 1024-byte header followed immediately by the raw
plane data. -/
theorem c1_amended (img : ImageWrapper) (prc : Int)
    (hpt : pixel_types img.pixelsType = some prc)
    (h1 : 1 ≤ img.sizeC) (h4 : img.sizeC ≤ 4)
    (hch : img.channels.length = img.sizeC) (hwf : planesWF img) :
    (write_imsubs img).2 = none ∧
    (write_imsubs img).1.length
      = 1024 + img.sizeZ * img.sizeC * img.sizeT * img.sizeX * img.sizeY
          * bytesPerSample img.pixelsType ∧
    (write_imsubs img).1.drop 1024 = planesBytes img := by
  rw [write_imsubs_succ img prc hpt h4]
  refine ⟨rfl, ?_, ?_⟩
  · show (successBytes img prc).length = _
    rw [successBytes_eq, List.length_append,
      successHeader_length img prc h1 h4 hch, planesBytes_length img prc hpt hwf]
  · show (successBytes img prc).drop 1024 = _
    rw [successBytes_eq,
      drop_len_append 1024 _ _ (successHeader_length img prc h1 h4 hch)]

/-- C1, witness: the amended theorem instantiated at the concrete 2x2 int16
dataset `exDS1` (1032 = 1024 + 1*1*1*2*2*2 bytes). -/
theorem c1_witness :
    (pixel_types exDS1.pixelsType = some 1 ∧ 1 ≤ exDS1.sizeC ∧ exDS1.sizeC ≤ 4 ∧
      exDS1.channels.length = exDS1.sizeC ∧ planesWF exDS1) ∧
    (write_imsubs exDS1).2 = none ∧
    (write_imsubs exDS1).1.length
      = 1024 + exDS1.sizeZ * exDS1.sizeC * exDS1.sizeT * exDS1.sizeX * exDS1.sizeY
          * bytesPerSample exDS1.pixelsType ∧
    (write_imsubs exDS1).1.drop 1024 = planesBytes exDS1 :=
  ⟨⟨rfl, by decide, by decide, by decide, by decide⟩,
    c1_amended exDS1 1 rfl (by decide) (by decide) (by decide) (by decide)⟩

/-- C2: for every successful encode, the plane chunk at 0-indexed stream
position `k` after the 1024-byte header is the plane
`(channel = k / (num_time * num_z), time = k / num_z % num_time,
z = k % num_z)` -- the channel-then-time-then-Z write order. -/
theorem c2_order (img : ImageWrapper) (prc : Int)
    (hpt : pixel_types img.pixelsType = some prc)
    (h1 : 1 ≤ img.sizeC) (h4 : img.sizeC ≤ 4)
    (hch : img.channels.length = img.sizeC) (hwf : planesWF img)
    (k : Nat) (hk : k < img.sizeC * img.sizeT * img.sizeZ) :
    ((write_imsubs img).1.drop
        (1024 + k * (img.sizeY * img.sizeX * bytesPerSample img.pixelsType))).take
      (img.sizeY * img.sizeX * bytesPerSample img.pixelsType)
      = planeFileBytes img.pixelsType
          (img.getPlane (k / (img.sizeT * img.sizeZ))
            (k / img.sizeZ % img.sizeT) (k % img.sizeZ)) := by
  rw [write_imsubs_succ img prc hpt h4]
  show (((successBytes img prc).drop _).take _) = _
  rw [successBytes_eq,
    drop_add_append 1024 _ _ _ (successHeader_length img prc h1 h4 hch),
    planesBytes_eq_chunks]
  have hcount : k < (planeChunks img).length := by
    rw [planeChunks_count, ← Nat.mul_assoc]; exact hk
  rw [chunk_extract _ _ (planeChunks_lengths img prc hpt hwf) k hcount,
    planeChunks_eq,
    List.getD_eq_getElem _ _ (by
      rw [List.length_map, List.length_range, ← Nat.mul_assoc]; exact hk),
    List.getElem_map, List.getElem_range]

/-- C2, witness: the theorem at the 3-channel, 2-timepoint, 4-section
dataset `exDS2` and stream position 13 (channel 1, time 1, z 1). -/
theorem c2_witness :
    (pixel_types exDS2.pixelsType = some 0 ∧ planesWF exDS2 ∧
      (13 : Nat) < exDS2.sizeC * exDS2.sizeT * exDS2.sizeZ) ∧
    ((write_imsubs exDS2).1.drop
        (1024 + 13 * (exDS2.sizeY * exDS2.sizeX * bytesPerSample exDS2.pixelsType))).take
      (exDS2.sizeY * exDS2.sizeX * bytesPerSample exDS2.pixelsType)
      = planeFileBytes exDS2.pixelsType
          (exDS2.getPlane (13 / (exDS2.sizeT * exDS2.sizeZ))
            (13 / exDS2.sizeZ % exDS2.sizeT) (13 % exDS2.sizeZ)) :=
  ⟨⟨rfl, by decide, by decide⟩,
    c2_order exDS2 0 rfl (by decide) (by decide) (by decide) (by decide) 13 (by decide)⟩

/-- C3: for a single-channel, single-timepoint, single-section dataset of
integer samples (no float64 dtype tag), the bytes at offset 1024 of the
output are, bit for bit, the vertically flipped (row-order-reversed)
original plane serialized sample by sample. -/
theorem c3_roundtrip (img : ImageWrapper)
    (hC : img.sizeC = 1) (hT : img.sizeT = 1) (hZ : img.sizeZ = 1)
    (hch : img.channels.length = 1)
    (hint : img.pixelsType = PixelsType.uint8 ∨ img.pixelsType = PixelsType.int16 ∨
      img.pixelsType = PixelsType.uint16 ∨ img.pixelsType = PixelsType.int32)
    (hf : (img.getPlane 0 0 0).isFloat64 = false) :
    (write_imsubs img).2 = none ∧
    (write_imsubs img).1.drop 1024
      = (flipud (img.getPlane 0 0 0).rows).flatMap
          (fun row => row.flatMap (fun v => sampleBytes img.pixelsType v)) := by
  obtain ⟨prc, hpt⟩ : ∃ prc, pixel_types img.pixelsType = some prc := by
    rcases hint with h | h | h | h <;> rw [h] <;> exact ⟨_, rfl⟩
  rw [write_imsubs_succ img prc hpt (by omega)]
  refine ⟨rfl, ?_⟩
  show (successBytes img prc).drop 1024 = _
  rw [successBytes_eq,
    drop_len_append 1024 _ _
      (successHeader_length img prc (by omega) (by omega) (by omega))]
  unfold planesBytes
  rw [hC, hT, hZ]
  have hr1 : List.range 1 = [0] := rfl
  simp only [hr1, List.flatMap_singleton]
  unfold planeFileBytes
  simp [hf]

/-- C3, witness: the theorem at the 2x2 int16 dataset `exDS1`. -/
theorem c3_witness :
    (exDS1.sizeC = 1 ∧ exDS1.sizeT = 1 ∧ exDS1.sizeZ = 1 ∧
      exDS1.channels.length = 1 ∧ exDS1.pixelsType = PixelsType.int16 ∧
      (exDS1.getPlane 0 0 0).isFloat64 = false) ∧
    (write_imsubs exDS1).2 = none ∧
    (write_imsubs exDS1).1.drop 1024
      = (flipud (exDS1.getPlane 0 0 0).rows).flatMap
          (fun row => row.flatMap (fun v => sampleBytes exDS1.pixelsType v)) :=
  ⟨⟨rfl, rfl, rfl, rfl, rfl, rfl⟩,
    c3_roundtrip exDS1 rfl rfl rfl rfl (Or.inr (Or.inl rfl)) rfl⟩

/-- C4, counterexample: encoding the uint32 dataset `exU32` raises
`UnsupportedPixelType`, but twelve bytes (width, height, section count)
have already been written to the sink -- not zero. -/
theorem c4_counterexample :
    (write_imsubs exU32).2 = some EncErr.unsupportedPixelType ∧
    (write_imsubs exU32).1.length = 12 ∧
    0 < (write_imsubs exU32).1.length := by decide

/-- C4, amended: whenever the pixel type has no mode code,
`write_imsubs` raises `UnsupportedPixelType` with exactly the 12-byte
width/height/section-count prefix already written (the validation runs
after those three fields are emitted, not before any byte). -/
theorem c4_amended (img : ImageWrapper)
    (hpt : pixel_types img.pixelsType = none) :
    write_imsubs img = (first12 img, some EncErr.unsupportedPixelType) ∧
    (first12 img).length = 12 := by
  constructor
  · unfold write_imsubs; rw [hpt]
  · exact first12_length img

/-- C4, witness: the amended theorem at the bit-typed dataset `exBit`. -/
theorem c4_witness :
    pixel_types exBit.pixelsType = none ∧
    write_imsubs exBit = (first12 exBit, some EncErr.unsupportedPixelType) ∧
    (first12 exBit).length = 12 :=
  ⟨rfl, c4_amended exBit rfl⟩

/-- C5 (code bug): every dataset with five or more channels and an
encodable pixel type makes `write_imsubs` raise `struct.error` at the
channel-min/max zero padding (`"%if" % ((4 - nchan) * 2)` is a negative
repeat count), so the `nchan == 5` fifth-channel branch and the
`TooManyChannels` raise are unreachable, contradicting the function's own
docstring and dead code. -/
theorem c5_bug (img : ImageWrapper) (prc : Int)
    (hpt : pixel_types img.pixelsType = some prc) (h5 : 5 ≤ img.sizeC) :
    write_imsubs img = (preMinMaxPad img prc, some EncErr.structError) := by
  have hneg : (4 - (img.sizeC : Int)) * 2 < 0 := by omega
  simp [write_imsubs, hpt, hneg]

/-- C5, witness: the bug theorem at the five-channel dataset `exDS5ch` and
the six-channel dataset `exDS6ch`. -/
theorem c5_witness :
    (pixel_types exDS5ch.pixelsType = some 0 ∧ 5 ≤ exDS5ch.sizeC ∧
      write_imsubs exDS5ch = (preMinMaxPad exDS5ch 0, some EncErr.structError)) ∧
    (pixel_types exDS6ch.pixelsType = some 0 ∧ 5 ≤ exDS6ch.sizeC ∧
      write_imsubs exDS6ch = (preMinMaxPad exDS6ch 0, some EncErr.structError)) :=
  ⟨⟨rfl, by decide, c5_bug exDS5ch 0 rfl (by decide)⟩,
    ⟨rfl, by decide, c5_bug exDS6ch 0 rfl (by decide)⟩⟩

/-- C6, counterexample: the claim says every type other than uint32,
float64, bit and complex128 -- including int8 -- maps to a mode code, but
the lookup table maps int8 to `None` and encoding the int8 dataset
`exInt8` raises `UnsupportedPixelType`. -/
theorem c6_counterexample :
    pixel_types PixelsType.int8 = none ∧
    (write_imsubs exInt8).2 = some EncErr.unsupportedPixelType := by decide

/-- C6, amended: `write_imsubs` rejects exactly the pixel types int8,
uint32, float64, bit and complex128; every other type maps to its mode
code (uint8=0, int16=1, float32=2, complex64=4, uint16=6, int32=7), and
the mode is written at header offset 12. -/
theorem c6_amended :
    (∀ pt : PixelsType, pixel_types pt = none ↔
      (pt = PixelsType.int8 ∨ pt = PixelsType.uint32 ∨ pt = PixelsType.double ∨
        pt = PixelsType.bit ∨ pt = PixelsType.doublecomplex)) ∧
    (∀ (img : ImageWrapper) (prc : Int), pixel_types img.pixelsType = some prc →
      ((write_imsubs img).1.drop 12).take 4 = pack_i32 prc) ∧
    pixel_types PixelsType.uint8 = some 0 ∧ pixel_types PixelsType.int16 = some 1 ∧
    pixel_types PixelsType.float = some 2 ∧ pixel_types PixelsType.complex = some 4 ∧
    pixel_types PixelsType.uint16 = some 6 ∧ pixel_types PixelsType.int32 = some 7 := by
  refine ⟨?_, ?_, rfl, rfl, rfl, rfl, rfl, rfl⟩
  · intro pt; cases pt <;> simp [pixel_types]
  · intro img prc hpt; exact mode_slice img prc hpt

/-- C6, witness: the mode-at-offset-12 part of the amended theorem at the
int16 dataset `exDS1`. -/
theorem c6_witness :
    pixel_types exDS1.pixelsType = some 1 ∧
    ((write_imsubs exDS1).1.drop 12).take 4 = pack_i32 1 :=
  ⟨rfl, c6_amended.2.1 exDS1 1 rfl⟩

/-- C7: for every successful encode, the two bytes at offsets 96-97,
read as a little-endian signed 16-bit integer, equal -16224 (the IMSUBS
signature). -/
theorem c7_signature (img : ImageWrapper)
    (h : (write_imsubs img).2 = none) :
    unpackI16 (write_imsubs img).1 96 = -16224 := by
  obtain ⟨prc, hpt, h4⟩ := write_imsubs_none_inv img h
  rw [write_imsubs_succ img prc hpt h4]
  show unpackI16 (successBytes img prc) 96 = -16224
  have h0 : (successBytes img prc).getD 96 0 = 160 := by
    simp only [successBytes, List.append_assoc]; exact sig96 img prc _
  have h1 : (successBytes img prc).getD 97 0 = 192 := by
    simp only [successBytes, List.append_assoc]; exact sig97 img prc _
  unfold unpackI16
  rw [h0, h1]
  decide

/-- C7, witness: the theorem at the dataset `exDS1`. -/
theorem c7_witness :
    (write_imsubs exDS1).2 = none ∧
    unpackI16 (write_imsubs exDS1).1 96 = -16224 :=
  ⟨rfl, c7_signature exDS1 rfl⟩

set_option maxRecDepth 100000 in
set_option maxHeartbeats 1000000 in
/-- C9, counterexample: on the single-channel, seven-timepoint dataset
`exC9` the image-type field is written at offset 160, not 168 (the
channel-min/max region is padded to three entries / 24 bytes, not four /
32), and accordingly the time-point count 7 sits at offset 180 while the
offset 188 that the claimed layout would assign to it holds 0. -/
theorem c9_counterexample :
    imagetypeFieldOffset exC9 0 = 160 ∧
    (write_imsubs exC9).1.getD 180 0 = 7 ∧
    (write_imsubs exC9).1.getD 188 0 = 0 := by decide

/-- C9, amended: for every successful encode the per-channel min/max
region at offset 136 holds min/max float32 pairs for channels
1..num_channels-1 zero-padded to *three* entries (24 bytes), and the next
field (imagetype, value 0) starts at offset *160*. -/
theorem c9_amended (img : ImageWrapper) (prc : Int)
    (hpt : pixel_types img.pixelsType = some prc)
    (h1 : 1 ≤ img.sizeC) (h4 : img.sizeC ≤ 4) :
    imagetypeFieldOffset img prc = 160 ∧
    ((write_imsubs img).1.drop 136).take 24 = chanMinMaxLoop img ++ padZeros img ∧
    ((write_imsubs img).1.drop 160).take 2 = pack_i16 0 := by
  have hL : (chanMinMaxLoop img).length = 8 * (img.sizeC - 1) := by
    rw [chanMinMaxLoop_length]; congr 1; omega
  have hP : (padZeros img).length = (4 - img.sizeC) * 8 := by
    rw [padZeros_length]; omega
  refine ⟨?_, ?_, ?_⟩
  · unfold imagetypeFieldOffset
    rw [List.length_append, preMinMaxPad_length, padZeros_length]; omega
  · rw [write_imsubs_succ img prc hpt h4]
    show ((successBytes img prc).drop 136).take 24 = _
    simp only [successBytes, preMinMaxPad, List.append_assoc]
    rw [show (136 : Nat) = 12 + 124 from rfl,
      drop_add_append 12 124 _ _ (first12_length img),
      show (124 : Nat) = 4 + 120 from rfl,
      drop_add_append 4 120 _ _ (pack_i32_length prc),
      show (120 : Nat) = 80 + 40 from rfl,
      drop_add_append 80 40 _ _ (chunk16to96_length img),
      show (40 : Nat) = 2 + 38 from rfl,
      drop_add_append 2 38 _ _ (pack_i16_length _),
      show (38 : Nat) = 38 + 0 from rfl,
      drop_add_append 38 0 _ _ chunk98to136_length, List.drop_zero,
      ← List.append_assoc]
    exact take_len_append 24 _ _ (by rw [List.length_append, hL, hP]; omega)
  · rw [write_imsubs_succ img prc hpt h4]
    show ((successBytes img prc).drop 160).take 2 = _
    simp only [successBytes, preMinMaxPad, List.append_assoc]
    rw [show (160 : Nat) = 12 + 148 from rfl,
      drop_add_append 12 148 _ _ (first12_length img),
      show (148 : Nat) = 4 + 144 from rfl,
      drop_add_append 4 144 _ _ (pack_i32_length prc),
      show (144 : Nat) = 80 + 64 from rfl,
      drop_add_append 80 64 _ _ (chunk16to96_length img),
      show (64 : Nat) = 2 + 62 from rfl,
      drop_add_append 2 62 _ _ (pack_i16_length _),
      show (62 : Nat) = 38 + 24 from rfl,
      drop_add_append 38 24 _ _ chunk98to136_length,
      ← List.append_assoc,
      drop_len_append 24 _ _ (by rw [List.length_append, hL, hP]; omega)]
    simp only [midBytes, List.append_assoc]
    exact take_len_append 2 _ _ (pack_i16_length 0)

/-- C9, witness: the amended theorem at the two-channel dataset `exDS9w`. -/
theorem c9_witness :
    (pixel_types exDS9w.pixelsType = some 1 ∧ 1 ≤ exDS9w.sizeC ∧
      exDS9w.sizeC ≤ 4) ∧
    imagetypeFieldOffset exDS9w 1 = 160 ∧
    ((write_imsubs exDS9w).1.drop 136).take 24
      = chanMinMaxLoop exDS9w ++ padZeros exDS9w ∧
    ((write_imsubs exDS9w).1.drop 160).take 2 = pack_i16 0 :=
  ⟨⟨rfl, by decide, by decide⟩,
    c9_amended exDS9w 1 rfl (by decide) (by decide)⟩

/-- C10: `is_imsubs` returns `False` on every input (it compares an
unsigned 16-bit read with -16224, which no unsigned value equals) -- in
both its `dv_utils` and `ndsafir` variants -- while `is_dv` accepts every
successful `write_imsubs` output, because the unsigned reading of the
written signature is 49312. -/
theorem c10_classifier :
    (∀ file : List Nat, is_imsubs file = false) ∧
    (∀ file : List Nat, ndsafir_is_imsubs file = false) ∧
    (∀ img : ImageWrapper,
      (write_imsubs img).2 = none → 1 ≤ img.sizeC →
      img.channels.length = img.sizeC → is_dv (write_imsubs img).1 = true) := by
  have hU : ∀ file : List Nat, ¬ (unpackU16 file 96 = (-16224 : Int)) := by
    intro file
    unfold unpackU16
    omega
  refine ⟨?_, ?_, ?_⟩
  · intro file
    unfold is_imsubs
    split
    · rw [if_neg (hU file)]
    · rfl
  · intro file
    unfold ndsafir_is_imsubs
    split
    · rw [if_neg (hU file)]
    · rfl
  · intro img h h1 hch
    obtain ⟨prc, hpt, h4⟩ := write_imsubs_none_inv img h
    rw [write_imsubs_succ img prc hpt h4]
    show is_dv (successBytes img prc) = true
    have hlen : 1024 ≤ (successBytes img prc).length := by
      rw [successBytes_eq, List.length_append,
        successHeader_length img prc h1 h4 hch]
      omega
    have h96 : unpackU16 (successBytes img prc) 96 = 49312 := by
      have h0 : (successBytes img prc).getD 96 0 = 160 := by
        simp only [successBytes, List.append_assoc]; exact sig96 img prc _
      have h1' : (successBytes img prc).getD 97 0 = 192 := by
        simp only [successBytes, List.append_assoc]; exact sig97 img prc _
      unfold unpackU16
      rw [h0, h1']
      decide
    unfold is_dv
    rw [if_pos hlen, if_pos (Or.inl h96)]

/-- C10, witness: the classifier facts at the dataset `exDS1`: its encode
output is accepted by `is_dv` and rejected by `is_imsubs`. -/
theorem c10_witness :
    ((write_imsubs exDS1).2 = none ∧ 1 ≤ exDS1.sizeC ∧
      exDS1.channels.length = exDS1.sizeC) ∧
    is_dv (write_imsubs exDS1).1 = true ∧
    is_imsubs (write_imsubs exDS1).1 = false :=
  ⟨⟨rfl, by decide, rfl⟩,
    c10_classifier.2.2 exDS1 rfl (by decide) rfl,
    c10_classifier.1 (write_imsubs exDS1).1⟩

end MRC
